import Mathlib

/-!
Shallow embedding of `src/main.rs` of xpctl: an interactive terminal browser
for remote connection entries.  The Rust `App` struct and its methods
(`run`, `fzf_search`, `handle_events`, `handshake`, `fetch_connections`,
`open_terminal_session`) are translated into pure Lean functions.

Modelling conventions:
* Rust methods taking `&mut self` become functions `App → ... → App` (or a
  pair of result and final state); methods taking `&self` cannot mutate the
  state, which the embedding makes structural by not returning an `App`.
* A Rust panic (`expect`, out-of-bounds indexing) is modelled by returning
  `none` from an `Option`-valued function.
* HTTP calls and the fzf subprocess are the environment: their outcomes are
  explicit arguments (`Except ReqError ...`, `HttpResult`, `FzfOutcome`).
* Terminal output and side effects are recorded as a trace of `OutputEvent`s
  in the order the Rust code performs them.
-/

namespace Xpctl

/-- The `App` struct of `main.rs` (the `HashMap<String, Vec<String>>` is
modelled as an association list; lookups go through `lookupRes`). -/
structure App where
  servers : List String
  resources : List (String × List String)
  selected_index : Nat
  viewing_resources : Bool
  current_server : String
  exit : Bool
  session_token : Option String
deriving DecidableEq, Repr

/-- `#[derive(Default)]` on `App`: all fields take their default values. -/
def App.default : App :=
  { servers := []
    resources := []
    selected_index := 0
    viewing_resources := false
    current_server := ""
    exit := false
    session_token := none }

/-- The `HandshakeResponse` struct. -/
structure HandshakeResponse where
  sessionToken : String
deriving DecidableEq, Repr

/-- The `ConnectionQueryResponse` struct. -/
structure ConnectionQueryResponse where
  found : List String
deriving DecidableEq, Repr

/-- The `RawData` struct (`containerName` field; unused by the folding code). -/
structure RawData where
  container_name : Option String
deriving DecidableEq, Repr

/-- The `ConnectionInfo` struct. -/
structure ConnectionInfo where
  name : List String
  raw_data : Option RawData
deriving DecidableEq, Repr

/-- The `ConnectionInfoResponse` struct. -/
structure ConnectionInfoResponse where
  infos : List ConnectionInfo
deriving DecidableEq, Repr

/-- A `reqwest::Error`: either the network call failed (`send`) or the
response body could not be parsed (`json`).  Carries the display message. -/
inductive ReqError
  | network (msg : String)
  | parse (msg : String)
deriving DecidableEq, Repr

/-- The display message of a `reqwest::Error` (its `Display` impl). -/
def ReqError.message : ReqError → String
  | .network m => m
  | .parse m => m

/-- Outcome of the terminal-launch HTTP call: a response with a success flag
and an optional body text (`resp.text()` may itself fail, giving `none`), or
a transport error. -/
inductive HttpResult
  | resp (success : Bool) (body : Option String)
  | err (msg : String)
deriving DecidableEq, Repr

/-- Outcome of running the external fzf process.  `spawnFail` and `waitFail`
correspond to the two `expect` calls in `fzf_search`; `output` carries the
exit status success flag and the stdout bytes (`none` when not valid UTF-8). -/
inductive FzfOutcome
  | spawnFail
  | writeFail (msg : String)
  | waitFail
  | output (success : Bool) (stdout : Option String)
deriving DecidableEq, Repr

/-- Observable side effects, in the order the Rust code performs them.
`launchRequest` records the POST to `/connection/terminal` with its payload
fields; `waitKey` records the blocking `event::read()` acknowledgment gate. -/
inductive OutputEvent
  | clearScreen
  | println (s : String)
  | eprintln (s : String)
  | launchRequest (connection : String) (directory : String)
  | waitKey
deriving DecidableEq, Repr

/-- Key codes distinguished by `handle_events` (everything else is `other`). -/
inductive KeyCode
  | down
  | up
  | enter
  | char (c : Char)
  | other
deriving DecidableEq, Repr

/-- Key event kinds: the handlers only fire on `press`. -/
inductive KeyEventKind
  | press
  | release
deriving DecidableEq, Repr

/-- A crossterm event: a key event or anything else (resize, mouse, ...). -/
inductive Event
  | key (code : KeyCode) (kind : KeyEventKind)
  | nonKey
deriving DecidableEq, Repr

/-- Environment for one `handle_events` call: the outcome the fzf subprocess
would produce and the response the terminal-launch endpoint would return. -/
structure Env where
  fzf : FzfOutcome
  terminal : HttpResult
deriving DecidableEq, Repr

/-- `HashMap::get`: first-match lookup in the association list. -/
def lookupRes : List (String × List String) → String → Option (List String)
  | [], _ => none
  | (k', vs) :: rest, k => if k' = k then some vs else lookupRes rest k

/-- `resources.entry(k).or_default().push(v)`: append `v` to the entry for
`k`, inserting an empty entry first when `k` is absent. -/
def insertPush : List (String × List String) → String → String → List (String × List String)
  | [], k, v => [(k, [v])]
  | (k', vs) :: rest, k, v =>
      if k' = k then (k', vs ++ [v]) :: rest else (k', vs) :: insertPush rest k v

/-- `Vec::dedup`: remove consecutive repeated elements. -/
def dedupAdjacent : List String → List String
  | [] => []
  | [a] => [a]
  | a :: b :: rest =>
      if a = b then dedupAdjacent (b :: rest) else a :: dedupAdjacent (b :: rest)

/-- `Vec::sort` on `Vec<String>`: stable sort by `≤` (insertion sort model). -/
def sortServers (l : List String) : List String :=
  List.insertionSort (· ≤ ·) l

/-- `str::trim` on a character list: drop leading and trailing whitespace. -/
def trimChars (l : List Char) : List Char :=
  ((l.dropWhile Char.isWhitespace).reverse.dropWhile Char.isWhitespace).reverse

/-- `str::trim`: the string with leading and trailing whitespace removed. -/
def strTrim (s : String) : String :=
  String.mk (trimChars s.data)

/-- `App::open_terminal_session`.  Takes `&self`, so it cannot mutate the
state: the embedding returns only the trace of side effects.  With no
session token nothing at all happens; otherwise the screen is cleared, the
launch POST is issued, the outcome is printed, and the function blocks on a
key press before returning. -/
def open_terminal_session (app : App) (connection_uuid : String)
    (resp : HttpResult) : List OutputEvent :=
  match app.session_token with
  | none => []
  | some _ =>
      [OutputEvent.clearScreen,
       OutputEvent.println ("Connecting to " ++ connection_uuid ++ "..."),
       OutputEvent.launchRequest connection_uuid "/"] ++
      (match resp with
       | .resp true _ =>
           [OutputEvent.println
             ("Terminal session opened successfully for: " ++ connection_uuid)]
       | .resp false body =>
           [OutputEvent.eprintln
             ("Error opening terminal session:\n" ++ body.getD "Unknown error")]
       | .err msg =>
           [OutputEvent.eprintln ("Request failed: " ++ msg)]) ++
      [OutputEvent.println "Press any key to return...", OutputEvent.waitKey]

/-- `App::fzf_search`.  Takes `&mut self` in Rust but performs no mutation;
the embedding returns the trace, or `none` for the two `expect` panics
(spawn failure and wait failure). -/
def fzf_search (app : App) (fzf : FzfOutcome) (term_resp : HttpResult) :
    Option (List OutputEvent) :=
  match fzf with
  | .spawnFail => none
  | .writeFail e => some [OutputEvent.eprintln ("Failed to write to fzf stdin: " ++ e)]
  | .waitFail => none
  | .output success stdout? =>
      if success then
        match stdout? with
        | none => some []
        | some stdout =>
            let selected := strTrim stdout
            match lookupRes app.resources selected with
            | some connection_ids =>
                match connection_ids.head? with
                | some connection_id =>
                    some (open_terminal_session app connection_id term_resp)
                | none =>
                    some [OutputEvent.eprintln
                      "No connection ID found for the selected server."]
            | none =>
                some [OutputEvent.eprintln "Selected server not found in resources."]
      else
        some [OutputEvent.eprintln "No selection made or fzf process failed."]

/-- The `KeyCode::Down | KeyCode::Char('j')` arm of `handle_events`. -/
def handle_down (app : App) : App :=
  if app.selected_index + 1 < app.servers.length then
    { app with selected_index := app.selected_index + 1 }
  else app

/-- The `KeyCode::Up | KeyCode::Char('k')` arm of `handle_events`. -/
def handle_up (app : App) : App :=
  if app.selected_index > 0 then
    { app with selected_index := app.selected_index - 1 }
  else app

/-- The `KeyCode::Enter` arm of `handle_events`.  The Rust code indexes
`self.servers[self.selected_index]`, which panics when the index is out of
bounds (modelled by `none`). -/
def handle_enter (app : App) (term_resp : HttpResult) :
    Option (App × List OutputEvent) :=
  match app.servers[app.selected_index]? with
  | none => none
  | some selected_server =>
      match lookupRes app.resources selected_server with
      | some connection_ids =>
          match connection_ids.head? with
          | some connection_id =>
              some (app, open_terminal_session app connection_id term_resp)
          | none => some (app, [])
      | none =>
          some (app, [OutputEvent.eprintln
            "No connection ID found for the selected server."])

/-- `App::handle_events` for one already-read event.  Returns the new state
and the trace of side effects, or `none` when the handler panics. -/
def handle_events (app : App) (ev : Event) (env : Env) :
    Option (App × List OutputEvent) :=
  match ev with
  | .key .down .press => some (handle_down app, [])
  | .key .up .press => some (handle_up app, [])
  | .key .enter .press => handle_enter app env.terminal
  | .key (.char c) .press =>
      if c = 'j' then some (handle_down app, [])
      else if c = 'k' then some (handle_up app, [])
      else if c = '/' then
        (fzf_search app env.fzf env.terminal).map (fun tr => (app, tr))
      else if c = 'q' then some ({ app with exit := true }, [])
      else some (app, [])
  | _ => some (app, [])

/-- `App::handshake`.  `std::env::var("XPIPE_API_KEY").expect(...)` panics
when the variable is absent (modelled by `none`); otherwise the function
returns whatever the send/parse pipeline produced, mapped to the
`sessionToken` field. -/
def handshake (api_key : Option String)
    (resp : Except ReqError HandshakeResponse) :
    Option (Except ReqError String) :=
  match api_key with
  | none => none
  | some _ => some (resp.map (fun r => r.sessionToken))

/-- One iteration of the folding loop of `App::fetch_connections`: when the
info has a first name, push the name onto `servers` and push the id onto the
`resources` entry for that name; otherwise do nothing. -/
def foldStep (a : App) (p : ConnectionInfo × String) : App :=
  match p.1.name.head? with
  | some server_name =>
      { a with
        servers := a.servers ++ [server_name]
        resources := insertPush a.resources server_name p.2 }
  | none => a

/-- The folding loop of `App::fetch_connections` over `infos.zip(ids)`. -/
def fold_connections (app : App) (infos : List ConnectionInfo)
    (ids : List String) : App :=
  (infos.zip ids).foldl foldStep app

/-- `App::fetch_connections`.  Returns the Rust result together with the
final state (the `&mut self` after the call).  With no session token nothing
happens; an error in either HTTP step propagates via `?` before any
mutation; on success the fold runs and `servers` is sorted and deduped. -/
def fetch_connections (app : App)
    (query_resp : Except ReqError ConnectionQueryResponse)
    (info_resp : List String → Except ReqError ConnectionInfoResponse) :
    Except ReqError Unit × App :=
  match app.session_token with
  | none => (Except.ok (), app)
  | some _ =>
      match query_resp with
      | .error e => (.error e, app)
      | .ok q =>
          let connection_ids := q.found
          match info_resp connection_ids with
          | .error e => (.error e, app)
          | .ok ir =>
              let app' := fold_connections app ir.infos connection_ids
              (.ok (),
               { app' with servers := dedupAdjacent (sortServers app'.servers) })

/-- The startup part of `App::run` (before the render loop): handshake, then
fetch when the handshake succeeded, reporting failures on stderr.  `none`
is the handshake panic on a missing `XPIPE_API_KEY`. -/
def run_startup (app : App) (api_key : Option String)
    (hs_resp : Except ReqError HandshakeResponse)
    (query_resp : Except ReqError ConnectionQueryResponse)
    (info_resp : List String → Except ReqError ConnectionInfoResponse) :
    Option (App × List OutputEvent) :=
  match handshake api_key hs_resp with
  | none => none
  | some (.ok token) =>
      let app1 := { app with session_token := some token }
      let r := fetch_connections app1 query_resp info_resp
      match r.1 with
      | .ok _ => some (r.2, [])
      | .error e =>
          some (r.2, [OutputEvent.eprintln
            ("Error fetching connections: " ++ e.message)])
  | some (.error _) =>
      some (app, [OutputEvent.eprintln "Error during handshake."])

/-! ### Specification helpers

Closed-form descriptions of what the folding loop does, used to state the
claims; each is connected to the executable embedding by a proved lemma. -/

/-- The `(display name, identifier)` pairs the folding loop processes, in
discovery order: one pair per zipped element whose info has a first name. -/
def collectPairs (l : List (ConnectionInfo × String)) : List (String × String) :=
  l.filterMap (fun p => p.1.name.head?.map (fun n => (n, p.2)))

/-- Repeated `insertPush` over a pair list, the resources part of the fold. -/
def foldIns (res : List (String × List String)) (pairs : List (String × String)) :
    List (String × List String) :=
  pairs.foldl (fun r p => insertPush r p.1 p.2) res

/-- The identifier list stored for a name, `[]` when the name is absent. -/
def lookupList (res : List (String × List String)) (k : String) : List String :=
  (lookupRes res k).getD []

/-! ### Lemmas about the association-list operations -/

theorem lookupRes_insertPush_same (res : List (String × List String))
    (k v : String) :
    lookupRes (insertPush res k v) k = some (lookupList res k ++ [v]) := by
  induction res with
  | nil => simp [insertPush, lookupRes, lookupList]
  | cons hd tl ih =>
      obtain ⟨k', vs⟩ := hd
      by_cases h : k' = k
      · subst h
        simp [insertPush, lookupRes, lookupList]
      · simp [insertPush, lookupRes, h, lookupList] at ih ⊢
        exact ih

theorem lookupRes_insertPush_ne (res : List (String × List String))
    (k v k' : String) (h : k' ≠ k) :
    lookupRes (insertPush res k v) k' = lookupRes res k' := by
  induction res with
  | nil => simp [insertPush, lookupRes, Ne.symm h]
  | cons hd tl ih =>
      obtain ⟨k₀, vs⟩ := hd
      by_cases h0 : k₀ = k
      · subst h0
        simp [insertPush, lookupRes, Ne.symm h]
      · simp only [insertPush, if_neg h0, lookupRes]
        by_cases h1 : k₀ = k'
        · simp [h1]
        · simp [h1, ih]

theorem lookupList_foldIns (pairs : List (String × String))
    (res : List (String × List String)) (k : String) :
    lookupList (foldIns res pairs) k =
      lookupList res k ++ (pairs.filter (fun p => p.1 = k)).map Prod.snd := by
  induction pairs generalizing res with
  | nil => simp [foldIns]
  | cons p ps ih =>
      obtain ⟨n, v⟩ := p
      show lookupList (foldIns (insertPush res n v) ps) k = _
      rw [ih]
      by_cases h : n = k
      · subst h
        simp [List.filter, lookupList, lookupRes_insertPush_same]
      · have : lookupList (insertPush res n v) k = lookupList res k := by
          simp [lookupList, lookupRes_insertPush_ne res n v k (fun hh => h hh.symm)]
        rw [this]
        simp [List.filter, h]

theorem lookupRes_isSome_foldIns (pairs : List (String × String))
    (res : List (String × List String)) (k : String) :
    (lookupRes (foldIns res pairs) k).isSome =
      ((lookupRes res k).isSome || pairs.any (fun p => p.1 = k)) := by
  induction pairs generalizing res with
  | nil => simp [foldIns]
  | cons p ps ih =>
      obtain ⟨n, v⟩ := p
      show (lookupRes (foldIns (insertPush res n v) ps) k).isSome = _
      rw [ih]
      by_cases h : n = k
      · subst h
        simp [lookupRes_insertPush_same]
      · simp [lookupRes_insertPush_ne res n v k (fun hh => h hh.symm), h,
          List.any_cons]

theorem lookupRes_eq_some_lookupList (res : List (String × List String))
    (k : String) (h : (lookupRes res k).isSome = true) :
    lookupRes res k = some (lookupList res k) := by
  cases hres : lookupRes res k with
  | none => rw [hres] at h; simp at h
  | some vs => simp [lookupList, hres]

theorem lookupRes_foldIns_some (res : List (String × List String))
    (pairs : List (String × String)) (k : String)
    (hsome : (lookupRes (foldIns res pairs) k).isSome = true) :
    lookupRes (foldIns res pairs) k =
      some (lookupList res k ++ (pairs.filter (fun p => p.1 = k)).map Prod.snd) := by
  rw [lookupRes_eq_some_lookupList _ _ hsome, lookupList_foldIns]

/-! ### Closed form of the folding loop -/

theorem foldl_foldStep_eq (l : List (ConnectionInfo × String)) (app : App) :
    l.foldl foldStep app =
      { app with
        servers := app.servers ++ (collectPairs l).map Prod.fst
        resources := foldIns app.resources (collectPairs l) } := by
  induction l generalizing app with
  | nil => simp [collectPairs, foldIns]
  | cons p ps ih =>
      show ps.foldl foldStep (foldStep app p) = _
      rw [ih]
      cases hname : p.1.name.head? with
      | none =>
          simp [foldStep, hname, collectPairs, foldIns]
      | some n =>
          simp [foldStep, hname, collectPairs, foldIns, List.filterMap_cons]

theorem fold_connections_eq (app : App) (infos : List ConnectionInfo)
    (ids : List String) :
    fold_connections app infos ids =
      { app with
        servers := app.servers ++ (collectPairs (infos.zip ids)).map Prod.fst
        resources := foldIns app.resources (collectPairs (infos.zip ids)) } :=
  foldl_foldStep_eq (infos.zip ids) app

/-! ### Lemmas about sort and dedup -/

theorem mem_dedupAdjacent : ∀ (l : List String) (a : String),
    a ∈ dedupAdjacent l ↔ a ∈ l
  | [], a => by simp [dedupAdjacent]
  | [b], a => by simp [dedupAdjacent]
  | b :: c :: rest, a => by
      by_cases h : b = c
      · rw [dedupAdjacent, if_pos h, mem_dedupAdjacent (c :: rest) a]
        subst h
        simp [List.mem_cons]
      · rw [dedupAdjacent, if_neg h]
        simp [List.mem_cons, mem_dedupAdjacent (c :: rest) a]

theorem nodup_dedupAdjacent : ∀ (l : List String),
    l.Sorted (· ≤ ·) → (dedupAdjacent l).Nodup
  | [], _ => by simp [dedupAdjacent]
  | [b], _ => by simp [dedupAdjacent]
  | b :: c :: rest, h => by
      have hbc : b ≤ c := (List.sorted_cons.mp h).1 c (by simp)
      have htail : (c :: rest).Sorted (· ≤ ·) := (List.sorted_cons.mp h).2
      by_cases hbceq : b = c
      · rw [dedupAdjacent, if_pos hbceq]
        exact nodup_dedupAdjacent (c :: rest) htail
      · rw [dedupAdjacent, if_neg hbceq]
        refine List.nodup_cons.mpr ⟨?_, nodup_dedupAdjacent (c :: rest) htail⟩
        intro hmem
        rw [mem_dedupAdjacent] at hmem
        rcases List.mem_cons.mp hmem with h1 | h2
        · exact hbceq h1
        · have hcb : c ≤ b := (List.sorted_cons.mp htail).1 b h2
          exact hbceq (le_antisymm hbc hcb)

theorem sortServers_perm (l : List String) : List.Perm (sortServers l) l :=
  List.perm_insertionSort _ l

theorem sortServers_sorted (l : List String) : (sortServers l).Sorted (· ≤ ·) :=
  List.sorted_insertionSort _ l

/-- After `sort` and `dedup`, a name that was in the list occurs exactly once. -/
theorem count_dedupAdjacent_sortServers (l : List String) (n : String)
    (h : n ∈ l) : (dedupAdjacent (sortServers l)).count n = 1 :=
  List.count_eq_one_of_mem (nodup_dedupAdjacent _ (sortServers_sorted l))
    ((mem_dedupAdjacent _ n).mpr ((sortServers_perm l).mem_iff.mpr h))

theorem mem_dedupAdjacent_sortServers (l : List String) (n : String) :
    n ∈ dedupAdjacent (sortServers l) ↔ n ∈ l := by
  rw [mem_dedupAdjacent, (sortServers_perm l).mem_iff]

/-! ### Concrete states used by witnesses -/

/-- A two-item catalogue with the cursor on the second item. -/
def appTwo : App :=
  { App.default with servers := ["alpha", "beta"], selected_index := 1 }

/-- An authenticated state with an empty catalogue. -/
def appTok : App :=
  { App.default with session_token := some "tok" }

/-- An authenticated state with one server mapped to two identifiers. -/
def appWeb : App :=
  { App.default with
    servers := ["web1"]
    resources := [("web1", ["a1", "a2"])]
    session_token := some "tok" }

/-- A failed query step, used by witnesses. -/
def qDown : Except ReqError ConnectionQueryResponse :=
  Except.error (ReqError.network "down")

/-- A failing info step, used by witnesses. -/
def iBad : List String → Except ReqError ConnectionInfoResponse :=
  fun _ => Except.error (ReqError.parse "bad")

/-! ### Claims -/

/-- Claim C1, evaluated at the failing input.  At the empty-catalogue state
(the initial state, reached for example after a failed handshake), handling
Move-down and Move-up leaves the state unchanged as the claim says, but
handling Confirm (Enter) evaluates `self.servers[self.selected_index]` on
the empty vector — an out-of-bounds index that panics (modelled by `none`)
instead of the no-op the claim requires. -/
theorem c1_empty_catalogue_confirm_panics :
    handle_events App.default (Event.key KeyCode.down KeyEventKind.press)
        ⟨FzfOutcome.output false none, HttpResult.err "e"⟩ = some (App.default, []) ∧
    handle_events App.default (Event.key KeyCode.up KeyEventKind.press)
        ⟨FzfOutcome.output false none, HttpResult.err "e"⟩ = some (App.default, []) ∧
    handle_events App.default (Event.key KeyCode.enter KeyEventKind.press)
        ⟨FzfOutcome.output false none, HttpResult.err "e"⟩ = none :=
  ⟨by decide, by decide, by decide⟩

/-- Claim C2 counterexample: with the credential key absent from the
configuration, `handshake` does not return an `AuthError` value — the
`expect` call on the environment variable panics (modelled by `none`), so
no error value is ever produced and the degraded mode is never reached. -/
theorem c2_counterexample :
    handshake none (Except.ok { sessionToken := "tok" }) = none := rfl

/-- Claim C2 amended: when the key is present but the network call fails or
the response cannot be parsed, `handshake` returns the error, and startup
proceeds in degraded mode: the state is unchanged (catalogue empty on first
run), the error is reported on stderr, and the process does not crash.
When the key is absent, `handshake` panics instead of returning an error. -/
theorem c2_amended_degraded (app : App) (key : String) (e : ReqError)
    (q : Except ReqError ConnectionQueryResponse)
    (i : List String → Except ReqError ConnectionInfoResponse) :
    handshake (some key) (Except.error e) = some (Except.error e) ∧
    run_startup app (some key) (Except.error e) q i =
      some (app, [OutputEvent.eprintln "Error during handshake."]) ∧
    handshake none (Except.error e) = none ∧
    App.default.servers = [] :=
  ⟨rfl, rfl, rfl, rfl⟩

/-- Claim C3 counterexample: when the fzf process fails to spawn, the code
panics via `expect` (modelled by `none`) instead of treating the outcome as
"no match": the whole application aborts, contrary to the claim. -/
theorem c3_counterexample :
    fzf_search App.default FzfOutcome.spawnFail (HttpResult.err "refused") = none :=
  rfl

/-- Claim C3 amended: a non-zero exit of the matcher, or a successful exit
whose trimmed output matches no catalogue name (in particular empty output
when no server has the empty name), is treated as "no match": a diagnostic
is logged and the state is left unchanged (the `/` arm of `handle_events`
returns the state as it was, so the exit flag is not set).  A failure to
spawn the matcher process or to read its output, however, panics and aborts
the application. -/
theorem c3_amended_no_match (app : App) (env : Env) (s : String)
    (resp : HttpResult) (hq : lookupRes app.resources "" = none) :
    fzf_search app (FzfOutcome.output false (some s)) resp =
      some [OutputEvent.eprintln "No selection made or fzf process failed."] ∧
    fzf_search app (FzfOutcome.output true (some "")) resp =
      some [OutputEvent.eprintln "Selected server not found in resources."] ∧
    (∀ tr, fzf_search app env.fzf env.terminal = some tr →
        handle_events app (Event.key (KeyCode.char '/') KeyEventKind.press) env =
          some (app, tr)) := by
  refine ⟨rfl, ?_, ?_⟩
  · have ht : strTrim "" = "" := rfl
    simp [fzf_search, ht, hq]
  · intro tr htr
    simp [handle_events, htr]

/-- Concrete discharge of the amended C3 at a state with one server. -/
theorem c3_amended_no_match_witness :
    lookupRes appWeb.resources "" = none ∧
    (fzf_search appWeb (FzfOutcome.output false (some "x")) (HttpResult.err "r") =
        some [OutputEvent.eprintln "No selection made or fzf process failed."] ∧
      fzf_search appWeb (FzfOutcome.output true (some "")) (HttpResult.err "r") =
        some [OutputEvent.eprintln "Selected server not found in resources."] ∧
      (∀ tr,
          fzf_search appWeb (⟨FzfOutcome.output false (some "x"), HttpResult.err "r"⟩ : Env).fzf
              (⟨FzfOutcome.output false (some "x"), HttpResult.err "r"⟩ : Env).terminal =
            some tr →
          handle_events appWeb (Event.key (KeyCode.char '/') KeyEventKind.press)
              (⟨FzfOutcome.output false (some "x"), HttpResult.err "r"⟩ : Env) =
            some (appWeb, tr))) :=
  ⟨by decide,
   c3_amended_no_match appWeb ⟨FzfOutcome.output false (some "x"), HttpResult.err "r"⟩
     "x" (HttpResult.err "r") (by decide)⟩

/-- Claim C5: with a session token present, if the query step fails, or the
query step succeeds and the info step fails, `fetch_connections` returns
that error and the final state is exactly the initial state (in particular
the catalogue, empty on first run: `App::default` has empty `servers` and
`resources`). -/
theorem c5_fetch_error_state_unchanged (app : App) (tok : String)
    (q : Except ReqError ConnectionQueryResponse)
    (i : List String → Except ReqError ConnectionInfoResponse)
    (h : app.session_token = some tok) :
    (∀ e, q = Except.error e → fetch_connections app q i = (Except.error e, app)) ∧
    (∀ qr e, q = Except.ok qr → i qr.found = Except.error e →
        fetch_connections app q i = (Except.error e, app)) ∧
    App.default.servers = [] ∧ App.default.resources = [] := by
  refine ⟨?_, ?_, rfl, rfl⟩
  · rintro e rfl
    simp [fetch_connections, h]
  · rintro qr e rfl hi
    simp [fetch_connections, h, hi]

/-- Concrete discharge of C5 at an authenticated empty state. -/
theorem c5_fetch_error_state_unchanged_witness :
    appTok.session_token = some "tok" ∧
    ((∀ e, qDown = Except.error e →
        fetch_connections appTok qDown iBad = (Except.error e, appTok)) ∧
      (∀ qr e, qDown = Except.ok qr → iBad qr.found = Except.error e →
        fetch_connections appTok qDown iBad = (Except.error e, appTok)) ∧
      App.default.servers = [] ∧ App.default.resources = []) :=
  ⟨rfl, c5_fetch_error_state_unchanged appTok "tok" qDown iBad rfl⟩

/-- Claim C7: for a view of n items and a cursor in [0, n-1], Move-down
increments the cursor except at the last index where it stays, Move-up
decrements it except at 0 where it stays, and the cursor always remains
within [0, n-1] (it is a `Nat`, hence never negative).  The Down and Up
arms of `handle_events` are exactly `handle_down` and `handle_up` and emit
no side effects. -/
theorem c7_cursor_clamped (app : App)
    (h : app.selected_index < app.servers.length) :
    ((handle_down app).selected_index =
      if app.selected_index = app.servers.length - 1 then app.servers.length - 1
      else app.selected_index + 1) ∧
    ((handle_up app).selected_index =
      if app.selected_index = 0 then 0 else app.selected_index - 1) ∧
    (handle_down app).selected_index < app.servers.length ∧
    (handle_up app).selected_index < app.servers.length ∧
    (∀ env, handle_events app (Event.key KeyCode.down KeyEventKind.press) env =
        some (handle_down app, []) ∧
      handle_events app (Event.key KeyCode.up KeyEventKind.press) env =
        some (handle_up app, [])) := by
  refine ⟨?_, ?_, ?_, ?_, fun env => ⟨rfl, rfl⟩⟩
  · simp only [handle_down]
    split_ifs <;> simp_all <;> omega
  · simp only [handle_up]
    split_ifs <;> simp_all
  · simp only [handle_down]
    split_ifs <;> simp_all
  · simp only [handle_up]
    split_ifs <;> simp_all
    omega

/-- Concrete discharge of C7 at a two-item view with the cursor on item 1. -/
theorem c7_cursor_clamped_witness :
    appTwo.selected_index < appTwo.servers.length ∧
    (((handle_down appTwo).selected_index =
        if appTwo.selected_index = appTwo.servers.length - 1 then
          appTwo.servers.length - 1
        else appTwo.selected_index + 1) ∧
      ((handle_up appTwo).selected_index =
        if appTwo.selected_index = 0 then 0 else appTwo.selected_index - 1) ∧
      (handle_down appTwo).selected_index < appTwo.servers.length ∧
      (handle_up appTwo).selected_index < appTwo.servers.length ∧
      (∀ env, handle_events appTwo (Event.key KeyCode.down KeyEventKind.press) env =
          some (handle_down appTwo, []) ∧
        handle_events appTwo (Event.key KeyCode.up KeyEventKind.press) env =
          some (handle_up appTwo, []))) :=
  ⟨by decide, c7_cursor_clamped appTwo (by decide)⟩

/-- Claim C8: with no session token, `fetch_connections` returns success and
leaves the state untouched, and `open_terminal_session` produces no side
effects at all — no HTTP call, no terminal handoff (its trace is empty). -/
theorem c8_unauthenticated_noops (app : App)
    (q : Except ReqError ConnectionQueryResponse)
    (i : List String → Except ReqError ConnectionInfoResponse)
    (uuid : String) (resp : HttpResult)
    (h : app.session_token = none) :
    fetch_connections app q i = (Except.ok (), app) ∧
    open_terminal_session app uuid resp = [] := by
  constructor
  · simp [fetch_connections, h]
  · simp [open_terminal_session, h]

/-- Concrete discharge of C8 at the default (unauthenticated) state. -/
theorem c8_unauthenticated_noops_witness :
    App.default.session_token = none ∧
    (fetch_connections App.default (Except.error (ReqError.network "down"))
        (fun _ => Except.ok { infos := [] }) = (Except.ok (), App.default) ∧
      open_terminal_session App.default "u1" (HttpResult.err "x") = []) :=
  ⟨rfl,
   c8_unauthenticated_noops App.default (Except.error (ReqError.network "down"))
     (fun _ => Except.ok { infos := [] }) "u1" (HttpResult.err "x") rfl⟩

/-- Claim C4: in a fetch from the initial (empty) authenticated state, any
display name that at least one identifier resolves to occurs exactly once
in the resulting sorted, deduplicated servers sequence, and the mapping
entry for that name holds exactly the identifiers that resolved to it, in
discovery order (the spec scenario — identifiers `["a1","a2"]` both
resolving to `"web1"` — is the witness below). -/
theorem c4_duplicate_names_dedup (tok : String) (ids : List String)
    (infos : List ConnectionInfo) (n : String)
    (h : n ∈ (collectPairs (infos.zip ids)).map Prod.fst) :
    ((fetch_connections { App.default with session_token := some tok }
        (Except.ok { found := ids })
        (fun _ => Except.ok { infos := infos })).2.servers.count n = 1) ∧
    lookupRes (fetch_connections { App.default with session_token := some tok }
        (Except.ok { found := ids })
        (fun _ => Except.ok { infos := infos })).2.resources n =
      some (((collectPairs (infos.zip ids)).filter (fun p => p.1 = n)).map
        Prod.snd) := by
  have hfc : (fetch_connections { App.default with session_token := some tok }
      (Except.ok { found := ids }) (fun _ => Except.ok { infos := infos })).2 =
      { App.default with
        session_token := some tok
        servers := dedupAdjacent
          (sortServers ((collectPairs (infos.zip ids)).map Prod.fst))
        resources := foldIns [] (collectPairs (infos.zip ids)) } := by
    simp [fetch_connections, fold_connections_eq, App.default]
  rw [hfc]
  constructor
  · exact count_dedupAdjacent_sortServers _ n h
  · have hsome :
        (lookupRes (foldIns [] (collectPairs (infos.zip ids))) n).isSome = true := by
      rw [lookupRes_isSome_foldIns]
      obtain ⟨p, hp, hfst⟩ := List.mem_map.mp h
      simp only [lookupRes, Option.isSome_none, Bool.false_or]
      exact List.any_eq_true.mpr ⟨p, hp, by simp [hfst]⟩
    rw [lookupRes_foldIns_some _ _ _ hsome]
    simp [lookupList, lookupRes]

/-- The info step of the duplicate-name scenario of the spec. -/
def scenInfos : List ConnectionInfo := [⟨["web1"], none⟩, ⟨["web1"], none⟩]

/-- Concrete discharge of C4 at the spec scenario. -/
theorem c4_duplicate_names_dedup_witness :
    "web1" ∈ (collectPairs (scenInfos.zip ["a1", "a2"])).map Prod.fst ∧
    (((fetch_connections { App.default with session_token := some "t" }
        (Except.ok { found := ["a1", "a2"] })
        (fun _ => Except.ok { infos := scenInfos })).2.servers.count "web1" = 1) ∧
      lookupRes (fetch_connections { App.default with session_token := some "t" }
          (Except.ok { found := ["a1", "a2"] })
          (fun _ => Except.ok { infos := scenInfos })).2.resources "web1" =
        some (((collectPairs (scenInfos.zip ["a1", "a2"])).filter
          (fun p => p.1 = "web1")).map Prod.snd)) :=
  ⟨by decide, c4_duplicate_names_dedup "t" ["a1", "a2"] scenInfos "web1" (by decide)⟩

/-- Claim C6: with a session token, a launch call that returns a non-success
status with some body text surfaces exactly that body on stderr
(after the fixed diagnostic header), the trace ends with the blocking
press-any-key acknowledgment, and the Enter handler returns the state
unchanged, so the exit flag keeps its value and the application remains
running. -/
theorem c6_launch_failure_surfaced (app : App) (tok uuid body : String)
    (htok : app.session_token = some tok) :
    (OutputEvent.eprintln ("Error opening terminal session:\n" ++ body) ∈
        open_terminal_session app uuid (HttpResult.resp false (some body))) ∧
    ((open_terminal_session app uuid (HttpResult.resp false (some body))).getLast?
        = some OutputEvent.waitKey) ∧
    (∀ env name rest,
        app.servers[app.selected_index]? = some name →
        lookupRes app.resources name = some (uuid :: rest) →
        env.terminal = HttpResult.resp false (some body) →
        handle_events app (Event.key KeyCode.enter KeyEventKind.press) env =
          some (app, open_terminal_session app uuid
            (HttpResult.resp false (some body)))) := by
  refine ⟨?_, ?_, ?_⟩
  · simp [open_terminal_session, htok]
  · simp only [open_terminal_session, htok]
    rfl
  · intro env name rest h1 h2 h3
    simp [handle_events, handle_enter, h1, h2, h3]

/-- Concrete discharge of C6 at a one-server state and the spec scenario
body text. -/
theorem c6_launch_failure_surfaced_witness :
    appWeb.session_token = some "tok" ∧
    ((OutputEvent.eprintln ("Error opening terminal session:\n" ++ "connection refused") ∈
        open_terminal_session appWeb "a1"
          (HttpResult.resp false (some "connection refused"))) ∧
      ((open_terminal_session appWeb "a1"
          (HttpResult.resp false (some "connection refused"))).getLast? =
        some OutputEvent.waitKey) ∧
      (∀ env name rest,
          appWeb.servers[appWeb.selected_index]? = some name →
          lookupRes appWeb.resources name = some ("a1" :: rest) →
          env.terminal = HttpResult.resp false (some "connection refused") →
          handle_events appWeb (Event.key KeyCode.enter KeyEventKind.press) env =
            some (appWeb, open_terminal_session appWeb "a1"
              (HttpResult.resp false (some "connection refused"))))) :=
  ⟨rfl, c6_launch_failure_surfaced appWeb "tok" "a1" "connection refused" rfl⟩

/-- Claim C9: after a fetch pass, every name in the servers sequence has a
mapping entry with at least one identifier (given that the same invariant
held before the pass, as it does on the empty first-run state), and the
pass only appends to the mapping: every entry before the pass is an initial
segment of the entry after it. -/
theorem c9_mapping_invariant (app : App)
    (q : Except ReqError ConnectionQueryResponse)
    (i : List String → Except ReqError ConnectionInfoResponse)
    (hinv : ∀ s ∈ app.servers,
      ∃ vs, lookupRes app.resources s = some vs ∧ vs ≠ []) :
    (∀ s ∈ (fetch_connections app q i).2.servers,
        ∃ vs, lookupRes (fetch_connections app q i).2.resources s = some vs ∧
          vs ≠ []) ∧
    (∀ k, ∃ t, lookupList (fetch_connections app q i).2.resources k =
        lookupList app.resources k ++ t) := by
  cases htok : app.session_token with
  | none =>
      simp only [fetch_connections, htok]
      exact ⟨hinv, fun k => ⟨[], by simp⟩⟩
  | some tok =>
      cases q with
      | error e =>
          simp only [fetch_connections, htok]
          exact ⟨hinv, fun k => ⟨[], by simp⟩⟩
      | ok qr =>
          cases hi : i qr.found with
          | error e =>
              simp only [fetch_connections, htok, hi]
              exact ⟨hinv, fun k => ⟨[], by simp⟩⟩
          | ok ir =>
              have hfc : (fetch_connections app (Except.ok qr) i).2 =
                  { fold_connections app ir.infos qr.found with
                    servers := dedupAdjacent (sortServers
                      (fold_connections app ir.infos qr.found).servers) } := by
                simp [fetch_connections, htok, hi]
              rw [hfc, fold_connections_eq]
              constructor
              · intro s hs
                rw [mem_dedupAdjacent_sortServers] at hs
                have hsplit := List.mem_append.mp hs
                rcases hsplit with hold | hnew
                · obtain ⟨vs, hvs, hne⟩ := hinv s hold
                  have hsome : (lookupRes (foldIns app.resources
                      (collectPairs (ir.infos.zip qr.found))) s).isSome = true := by
                    rw [lookupRes_isSome_foldIns, hvs]
                    simp
                  refine ⟨_, lookupRes_foldIns_some _ _ _ hsome, ?_⟩
                  simp [lookupList, hvs, hne]
                · obtain ⟨p, hp, hfst⟩ := List.mem_map.mp hnew
                  have hsome : (lookupRes (foldIns app.resources
                      (collectPairs (ir.infos.zip qr.found))) s).isSome = true := by
                    rw [lookupRes_isSome_foldIns]
                    have : (collectPairs (ir.infos.zip qr.found)).any
                        (fun p => p.1 = s) = true :=
                      List.any_eq_true.mpr ⟨p, hp, by simp [hfst]⟩
                    simp [this]
                  refine ⟨_, lookupRes_foldIns_some _ _ _ hsome, ?_⟩
                  have hmem : p.2 ∈ ((collectPairs (ir.infos.zip qr.found)).filter
                      (fun p => p.1 = s)).map Prod.snd :=
                    List.mem_map.mpr ⟨p, List.mem_filter.mpr ⟨hp, by simp [hfst]⟩, rfl⟩
                  simp only [ne_eq, List.append_eq_nil]
                  intro hcon
                  rw [hcon.2] at hmem
                  exact absurd hmem (List.not_mem_nil p.2)
              · intro k
                exact ⟨_, lookupList_foldIns _ _ _⟩

/-- Concrete discharge of C9 at the authenticated empty first-run state. -/
theorem c9_mapping_invariant_witness :
    (∀ s ∈ appTok.servers,
        ∃ vs, lookupRes appTok.resources s = some vs ∧ vs ≠ []) ∧
    ((∀ s ∈ (fetch_connections appTok (Except.ok { found := ["a1", "a2"] })
          (fun _ => Except.ok { infos := scenInfos })).2.servers,
        ∃ vs, lookupRes (fetch_connections appTok
            (Except.ok { found := ["a1", "a2"] })
            (fun _ => Except.ok { infos := scenInfos })).2.resources s = some vs ∧
          vs ≠ []) ∧
      (∀ k, ∃ t, lookupList (fetch_connections appTok
          (Except.ok { found := ["a1", "a2"] })
          (fun _ => Except.ok { infos := scenInfos })).2.resources k =
        lookupList appTok.resources k ++ t)) :=
  ⟨by intro s hs; simp [appTok, App.default] at hs,
   c9_mapping_invariant appTok (Except.ok { found := ["a1", "a2"] })
     (fun _ => Except.ok { infos := scenInfos })
     (by intro s hs; simp [appTok, App.default] at hs)⟩

/-- Claim C10: whether the selection comes from Confirm (Enter) or from the
fuzzy-filter bridge, when the selected name maps to several identifiers the
session is launched against the first identifier of the mapping entry: the
emitted trace is the launch for that first identifier, it contains a launch
request for it, and every launch request in the trace is for it — the
remaining identifiers are never used. -/
theorem c10_first_identifier (app : App) (env : Env) (tok name cid s : String)
    (rest : List String)
    (htok : app.session_token = some tok)
    (hsel : app.servers[app.selected_index]? = some name)
    (hres : lookupRes app.resources name = some (cid :: rest))
    (htrim : strTrim s = name) :
    handle_events app (Event.key KeyCode.enter KeyEventKind.press) env =
      some (app, open_terminal_session app cid env.terminal) ∧
    fzf_search app (FzfOutcome.output true (some s)) env.terminal =
      some (open_terminal_session app cid env.terminal) ∧
    OutputEvent.launchRequest cid "/" ∈ open_terminal_session app cid env.terminal ∧
    (∀ j d, OutputEvent.launchRequest j d ∈
        open_terminal_session app cid env.terminal → j = cid) := by
  refine ⟨?_, ?_, ?_, ?_⟩
  · simp [handle_events, handle_enter, hsel, hres]
  · simp [fzf_search, htrim, hres]
  · simp [open_terminal_session, htok]
  · intro j d hj
    rcases henv : env.terminal with ⟨succ, body⟩ | msg
    · rw [henv] at hj
      cases succ <;> simp [open_terminal_session, htok] at hj <;> exact hj.1
    · rw [henv] at hj
      simp [open_terminal_session, htok] at hj
      exact hj.1

/-- Concrete discharge of C10 at a name mapped to two identifiers. -/
theorem c10_first_identifier_witness :
    appWeb.session_token = some "tok" ∧
    appWeb.servers[appWeb.selected_index]? = some "web1" ∧
    lookupRes appWeb.resources "web1" = some ("a1" :: ["a2"]) ∧
    strTrim "web1" = "web1" ∧
    (handle_events appWeb (Event.key KeyCode.enter KeyEventKind.press)
        ⟨FzfOutcome.output true (some "web1"), HttpResult.err "r"⟩ =
      some (appWeb, open_terminal_session appWeb "a1"
        (⟨FzfOutcome.output true (some "web1"), HttpResult.err "r"⟩ : Env).terminal) ∧
      fzf_search appWeb (FzfOutcome.output true (some "web1"))
          (⟨FzfOutcome.output true (some "web1"), HttpResult.err "r"⟩ : Env).terminal =
        some (open_terminal_session appWeb "a1"
          (⟨FzfOutcome.output true (some "web1"), HttpResult.err "r"⟩ : Env).terminal) ∧
      OutputEvent.launchRequest "a1" "/" ∈ open_terminal_session appWeb "a1"
        (⟨FzfOutcome.output true (some "web1"), HttpResult.err "r"⟩ : Env).terminal ∧
      (∀ j d, OutputEvent.launchRequest j d ∈ open_terminal_session appWeb "a1"
          (⟨FzfOutcome.output true (some "web1"), HttpResult.err "r"⟩ : Env).terminal →
        j = "a1")) :=
  ⟨rfl, rfl, rfl, by decide,
   c10_first_identifier appWeb ⟨FzfOutcome.output true (some "web1"), HttpResult.err "r"⟩
     "tok" "web1" "a1" "web1" ["a2"] rfl rfl rfl (by decide)⟩

end Xpctl
